import Mathlib

/-!
Shallow embedding of `src/sdk/lib/dragonboard/local_device.cpp` (aditof SDK,
dragonboard backend).  The embedding models the buffer-pool lifecycle
(`setFrameType`, destructor release), the capture state machine (`start`,
`stop`, `getFrame`) and the 12-bit frame unpacker of `LocalDevice::getFrame`.
Driver interaction (ioctl results, mmap/munmap results, select results) is
modelled by explicit environment records supplying each call's outcome; the
issued driver operations are collected in a command trace so that theorems
can speak about which operations were (not) performed.
-/

namespace AditofDragonboard

/-- Model of `aditof::Status` as used by `local_device.cpp` (only the three
values that the file produces). -/
inductive Status where
  | OK
  | BUSY
  | GENERIC_ERROR
deriving DecidableEq

/-- Model of the `errno` values distinguished by the `VIDIOC_DQBUF` error
switch in `LocalDevice::getFrame`: `EAGAIN`, `EIO`, and everything else. -/
inductive Errno where
  | eagainErr
  | eioErr
  | otherErr (code : Nat)
deriving DecidableEq

/-- Model of `aditof::FrameCalData` (`offset`, `gain`); the catalog only ever
stores the exact integers 0 and 1, so natural numbers model it faithfully. -/
structure CalData where
  offset : Nat
  gain : Nat
deriving DecidableEq

/-- Model of `aditof::FrameDetails`: the negotiated frame geometry. -/
structure FrameDetails where
  width : Nat
  height : Nat
  type : String
  cal_data : CalData
deriving DecidableEq

/-- Model of `struct buffer { void *start; size_t length; }`: one mapped
video buffer; `start` stands for the mapped address. -/
structure Buffer where
  start : Nat
  length : Nat
deriving DecidableEq

/-- Model of `LocalDevice::ImplData` (the fields the core logic reads and
writes: buffer pool bookkeeping, current geometry, started flag). -/
structure ImplData where
  nVideoBuffers : Nat
  videoBuffers : List Buffer
  frameDetails : FrameDetails
  started : Bool
deriving DecidableEq

/-- Driver / OS operations issued by the modelled functions, recorded as a
trace so theorems can state which operations a call performs. -/
inductive VCmd where
  | sfmt
  | reqbufs
  | querybuf (i : Nat)
  | mmapBuf (i : Nat)
  | munmapBuf (i : Nat)
  | qbuf (i : Nat)
  | dqbuf
  | streamon
  | streamoff
deriving DecidableEq

/-! ## getAvailableFrameTypes (lines 227-249) -/

/-- The fixed static catalog pushed by `LocalDevice::getAvailableFrameTypes`. -/
def frameTypeCatalog : List FrameDetails :=
  [⟨640, 960, "depth_ir", ⟨0, 1⟩⟩, ⟨668, 750, "raw", ⟨0, 1⟩⟩]

/-- `LocalDevice::getAvailableFrameTypes`: appends the two catalog entries to
the caller's vector and returns `Status::OK`. -/
def getAvailableFrameTypes (types : List FrameDetails) : Status × List FrameDetails :=
  (Status.OK, types ++ frameTypeCatalog)

/-! ## start / stop (lines 165-225) -/

/-- Environment for `start`: outcome of each `VIDIOC_QBUF` (by buffer index)
and of `VIDIOC_STREAMON`. -/
structure StartEnv where
  qbufOk : Nat → Bool
  streamOnOk : Bool

/-- The enqueue loop of `LocalDevice::start`: buffers 0..n-1 are enqueued in
order; the loop aborts with an error on the first failing `VIDIOC_QBUF`.
Returns whether all enqueues succeeded together with the issued commands. -/
def qbufLoop (qbufOk : Nat → Bool) : Nat → Bool × List VCmd
  | 0 => (true, [])
  | i + 1 =>
    match qbufLoop qbufOk i with
    | (false, cs) => (false, cs)
    | (true, cs) => (qbufOk i, cs ++ [VCmd.qbuf i])

/-- `LocalDevice::start`: busy if already started; otherwise enqueues every
pool buffer and issues `VIDIOC_STREAMON`; sets `started` only when everything
succeeded. -/
def start (env : StartEnv) (st : ImplData) : Status × ImplData × List VCmd :=
  if st.started then (Status.BUSY, st, [])
  else
    match qbufLoop env.qbufOk st.nVideoBuffers with
    | (false, cs) => (Status.GENERIC_ERROR, st, cs)
    | (true, cs) =>
      if env.streamOnOk then (Status.OK, { st with started := true }, cs ++ [VCmd.streamon])
      else (Status.GENERIC_ERROR, st, cs ++ [VCmd.streamon])

/-- `LocalDevice::stop`: busy if not started; otherwise issues
`VIDIOC_STREAMOFF` and clears `started` only on success. -/
def stop (streamOffOk : Bool) (st : ImplData) : Status × ImplData × List VCmd :=
  if st.started = false then (Status.BUSY, st, [])
  else if streamOffOk then (Status.OK, { st with started := false }, [VCmd.streamoff])
  else (Status.GENERIC_ERROR, st, [VCmd.streamoff])

/-! ## setFrameType (lines 251-339) and the destructor's unmap-all (61-84) -/

/-- Environment for `setFrameType`: outcomes of munmap (per buffer index),
`VIDIOC_S_FMT`, `VIDIOC_REQBUFS` (with the granted count), and per-index
`VIDIOC_QUERYBUF` / `mmap` outcomes with the driver-reported plane length and
memory offset (the offset stands in for the mapped address). -/
structure SetFrameTypeEnv where
  munmapOk : Nat → Bool
  sfmtOk : Bool
  reqbufsOk : Bool
  reqCount : Nat
  querybufOk : Nat → Bool
  mmapOk : Nat → Bool
  planeLen : Nat → Nat
  planeOff : Nat → Nat

/-- The unmap loop at the top of `LocalDevice::setFrameType` (lines 260-268):
unmaps buffers 0..n-1 in order, returning an error (aborting the loop) on the
first failing `munmap`. -/
def munmapLoop (munmapOk : Nat → Bool) : Nat → Bool × List VCmd
  | 0 => (true, [])
  | i + 1 =>
    match munmapLoop munmapOk i with
    | (false, cs) => (false, cs)
    | (true, cs) => (munmapOk i, cs ++ [VCmd.munmapBuf i])

/-- The release step of `setFrameType`: run the unmap loop; on any failure
return `GENERIC_ERROR` with the pool untouched (the early `return` at line
266); on success free the array and zero `nVideoBuffers` (lines 269-270). -/
def releaseBuffers (munmapOk : Nat → Bool) (st : ImplData) : Status × ImplData × List VCmd :=
  match munmapLoop munmapOk st.nVideoBuffers with
  | (false, cs) => (Status.GENERIC_ERROR, st, cs)
  | (true, cs) => (Status.OK, { st with nVideoBuffers := 0, videoBuffers := [] }, cs)

/-- The allocation loop of `setFrameType` (lines 306-334): for each granted
buffer, `VIDIOC_QUERYBUF` then `mmap`; aborts on the first failure.  The Bool
says whether all buffers were mapped; the list holds the buffers mapped so
far (the loop counter is `nVideoBuffers` itself, so on failure the pool count
equals the number successfully mapped). -/
def allocLoop (env : SetFrameTypeEnv) : Nat → Bool × List Buffer × List VCmd
  | 0 => (true, [], [])
  | i + 1 =>
    match allocLoop env i with
    | (false, bs, cs) => (false, bs, cs)
    | (true, bs, cs) =>
      if env.querybufOk i = false then (false, bs, cs ++ [VCmd.querybuf i])
      else if env.mmapOk i = false then (false, bs, cs ++ [VCmd.querybuf i, VCmd.mmapBuf i])
      else (true, bs ++ [⟨env.planeOff i, env.planeLen i⟩],
            cs ++ [VCmd.querybuf i, VCmd.mmapBuf i])

/-- The common tail of `setFrameType` (lines 275-338): set the pixel format,
request buffers, map them, and store the new geometry on full success. -/
def setFrameTypeCommon (env : SetFrameTypeEnv) (details : FrameDetails) (st : ImplData)
    (cs0 : List VCmd) : Status × ImplData × List VCmd :=
  if env.sfmtOk = false then (Status.GENERIC_ERROR, st, cs0 ++ [VCmd.sfmt])
  else if env.reqbufsOk = false then (Status.GENERIC_ERROR, st, cs0 ++ [VCmd.sfmt, VCmd.reqbufs])
  else
    match allocLoop env env.reqCount with
    | (true, bs, cs) =>
      (Status.OK,
       { st with nVideoBuffers := bs.length, videoBuffers := bs, frameDetails := details },
       cs0 ++ [VCmd.sfmt, VCmd.reqbufs] ++ cs)
    | (false, bs, cs) =>
      (Status.GENERIC_ERROR,
       { st with nVideoBuffers := bs.length, videoBuffers := bs },
       cs0 ++ [VCmd.sfmt, VCmd.reqbufs] ++ cs)

/-- `LocalDevice::setFrameType`.  The geometry comparison
`details != m_implData->frameDetails` uses `operator!=` from
`aditof/frame_operations.h`, which is not under `src/`; modelled from the
spec as structural inequality of the geometry record ("If g equals current
geometry and a pool already exists, this is a no-op success"). -/
def setFrameType (env : SetFrameTypeEnv) (details : FrameDetails) (st : ImplData) :
    Status × ImplData × List VCmd :=
  if details ≠ st.frameDetails then
    match releaseBuffers env.munmapOk st with
    | (Status.OK, st1, cs) => setFrameTypeCommon env details st1 cs
    | (s, st1, cs) => (s, st1, cs)
  else if st.nVideoBuffers ≠ 0 then (Status.OK, st, [])
  else setFrameTypeCommon env details st []

/-- The destructor's unmap-all loop (`LocalDevice::~LocalDevice`, lines
66-72): every buffer 0..n-1 is unmapped; an individual failure is only
logged (counted here) and never aborts the loop. -/
def dtorUnmapAll (munmapOk : Nat → Bool) : Nat → List VCmd × Nat
  | 0 => ([], 0)
  | i + 1 =>
    match dtorUnmapAll munmapOk i with
    | (cs, w) => (cs ++ [VCmd.munmapBuf i], w + (if munmapOk i then 0 else 1))

/-! ## writeAfeRegisters chunking loop (lines 591-629) -/

/-- `size_t` modulus: the remaining-length counter in
`LocalDevice::writeAfeRegisters` is a `size_t`. -/
def sizeTMod : Nat := 2 ^ 64

/-- One iteration's effect on the remaining-length counter:
`length -= CTRL_PACKET_SIZE` in `size_t` arithmetic (wraps at 2^64). -/
def wafeStep (len : Nat) : Nat := (len + (sizeTMod - 4096)) % sizeTMod

/-- The remaining-length counter of `writeAfeRegisters` after `k` loop
iterations, starting from `length *= 2 * sizeof(unsigned short)`, i.e. from
`4 * length` (in `size_t`). -/
def wafeCounter (length : Nat) : Nat → Nat
  | 0 => 4 * length % sizeTMod
  | k + 1 => wafeStep (wafeCounter length k)

/-! ## getFrame (lines 411-514): wait, dequeue, unpack, requeue -/

/-- `byteAt pdata i` is `*(pdata + i)` read as `unsigned char`. -/
def byteAt (pdata : Nat → Nat) (i : Nat) : Nat := pdata i % 256

/-- The even pixel of a byte triplet, exactly as written at lines 480-481 /
493-495: `(b0 << 4) | (b2 & 0x000F)` on 16-bit values. -/
def pixelEven (b0 b2 : Nat) : Nat := (b0 <<< 4) ||| (b2 &&& 0x000F)

/-- The odd pixel of a byte triplet, exactly as written at lines 484-485 /
498-500: `(b1 << 4) | ((b2 & 0x00F0) >> 4)` on 16-bit values. -/
def pixelOdd (b1 b2 : Nat) : Nat := (b1 <<< 4) ||| ((b2 &&& 0x00F0) >>> 4)

/-- Number of iterations of `for (i = 0; i < (int)(height*width*3/2); i += 3)`:
one iteration per input byte triplet. -/
def numTriplets (height width : Nat) : Nat := (height * width * 3 / 2 + 2) / 3

/-- State of the width-668 ("raw") unpack loop after some triplets: the list
of writes `(index, value)` performed into `buffer` so far, and the `int`
write cursor `j`. -/
def rawRun (pdata : Nat → Nat) : Nat → List (Int × Nat) × Int
  | 0 => ([], 0)
  | t + 1 =>
    let s := rawRun pdata t
    let j : Int := if 3 * t ≠ 0 ∧ 3 * t % (336 * 3) = 0 then s.2 - 4 else s.2
    (s.1 ++
      [(j, pixelEven (byteAt pdata (3 * t)) (byteAt pdata (3 * t + 2))),
       (j + 1, pixelOdd (byteAt pdata (3 * t + 1)) (byteAt pdata (3 * t + 2)))],
     j + 2)

/-- The full write trace of the width-668 branch of the unpacker
(lines 475-487). -/
def unpackRaw (pdata : Nat → Nat) (height width : Nat) : List (Int × Nat) :=
  (rawRun pdata (numTriplets height width)).1

/-- The write cursor at which triplet `t` of the width-668 branch writes its
even pixel (after the conditional `j -= 4` rewind). -/
def rawCursor (t : Nat) : Int := 2 * (t : Int) - 4 * ((t / 336 : Nat) : Int)

/-- State of the non-668 ("depth_ir") unpack loop: write trace, the pair
cursor `j`, and the two running output offsets (`offset[0]`, `offset[1]`). -/
structure DIState where
  trace : List (Nat × Nat)
  j : Nat
  o0 : Nat
  o1 : Nat
deriving DecidableEq

/-- One iteration of the non-668 unpack loop (lines 489-504): select
`offset_idx = (j / width) % 2`, write the two pixels at consecutive positions
of the selected running offset, advance that offset by 2 and `j` by 2. -/
def diStep (pdata : Nat → Nat) (width t : Nat) (s : DIState) : DIState :=
  if (s.j / width) % 2 = 0 then
    { trace := s.trace ++
        [(s.o0, pixelEven (byteAt pdata (3 * t)) (byteAt pdata (3 * t + 2))),
         (s.o0 + 1, pixelOdd (byteAt pdata (3 * t + 1)) (byteAt pdata (3 * t + 2)))],
      j := s.j + 2, o0 := s.o0 + 2, o1 := s.o1 }
  else
    { trace := s.trace ++
        [(s.o1, pixelEven (byteAt pdata (3 * t)) (byteAt pdata (3 * t + 2))),
         (s.o1 + 1, pixelOdd (byteAt pdata (3 * t + 1)) (byteAt pdata (3 * t + 2)))],
      j := s.j + 2, o0 := s.o0, o1 := s.o1 + 2 }

/-- The non-668 unpack loop after `t` triplets, starting from
`j = 0`, `offset[0] = 0`, `offset[1] = hw2` (`= height*width/2`). -/
def diRun (pdata : Nat → Nat) (width hw2 : Nat) : Nat → DIState
  | 0 => ⟨[], 0, 0, hw2⟩
  | t + 1 => diStep pdata width t (diRun pdata width hw2 t)

/-- The full write trace of the non-668 branch of the unpacker. -/
def unpackDI (pdata : Nat → Nat) (height width : Nat) : List (Nat × Nat) :=
  (diRun pdata width (height * width / 2) (numTriplets height width)).trace

/-- Number of triplets `k < t` whose pair is routed to `offset[0]`, i.e. for
which `(j / width) % 2 = 0` with `j = 2 * k`. -/
def selCount (width : Nat) : Nat → Nat
  | 0 => 0
  | t + 1 => selCount width t + (if (2 * t / width) % 2 = 0 then 1 else 0)

/-- The output position of the even pixel of triplet `t` in the non-668
branch, as predicted by the two-running-offset addressing. -/
def diIndex (width hw2 t : Nat) : Nat :=
  if (2 * t / width) % 2 = 0 then 2 * selCount width t
  else hw2 + 2 * (t - selCount width t)

/-- The unpacking step of `getFrame` (lines 474-505): the width-668 branch or
the two-offset branch, as one trace of `(index, value)` writes into the
caller's `uint16_t *buffer`. -/
def unpackFrame (pdata : Nat → Nat) (height width : Nat) : List (Int × Nat) :=
  if width = 668 then unpackRaw pdata height width
  else (unpackDI pdata height width).map (fun p => ((p.1 : Int), p.2))

/-- Apply a trace of writes to an output array modelled as `Nat → Nat`
(later writes override earlier ones, as in the C code). -/
def applyTrace (init : Nat → Nat) : List (Nat × Nat) → (Nat → Nat)
  | [] => init
  | p :: ps => applyTrace (Function.update init p.1 p.2) ps

/-- Whether a `VIDIOC_DQBUF` failure is tolerated by the `switch (errno)` at
lines 453-459: only `EAGAIN` and `EIO` are. -/
def dqTolerated (e : Errno) : Bool :=
  match e with
  | Errno.eagainErr => true
  | Errno.eioErr => true
  | Errno.otherErr _ => false

/-- The dequeue decision of `getFrame` (lines 450-465): a failed `DQBUF` with
a non-tolerated errno is fatal; then a reported index not below the pool
count is fatal; otherwise the reported index is used. -/
def dqDecision (n : Nat) (ok : Bool) (e : Errno) (idx : Nat) : Option Nat :=
  if ok = false ∧ dqTolerated e = false then none
  else if n ≤ idx then none
  else some idx

/-- The `tv.tv_sec` value of the `select` wait in `getFrame` (line 430). -/
def getFrameTimeoutSec : Nat := 4

/-- Environment for `getFrame`: the `select` result (−1 error, 0 timeout,
positive means ready), the `DQBUF` outcome (success flag, errno, reported
buffer index), the per-buffer plane bytes, and the requeue outcome. -/
structure GetFrameEnv where
  selectRes : Int
  dqOk : Bool
  dqErrno : Errno
  dqIndex : Nat
  bytes : Nat → Nat → Nat
  qbufOk : Bool

/-- `LocalDevice::getFrame`: wait with a 4-second timeout, dequeue, unpack
into the caller's buffer, requeue.  Returns the status, the driver commands
issued, and the writes performed into the output buffer. -/
def getFrame (env : GetFrameEnv) (st : ImplData) : Status × List VCmd × List (Int × Nat) :=
  if env.selectRes = -1 then (Status.GENERIC_ERROR, [], [])
  else if env.selectRes = 0 then (Status.GENERIC_ERROR, [], [])
  else
    match dqDecision st.nVideoBuffers env.dqOk env.dqErrno env.dqIndex with
    | none => (Status.GENERIC_ERROR, [VCmd.dqbuf], [])
    | some idx =>
      let writes := unpackFrame (env.bytes idx) st.frameDetails.height st.frameDetails.width
      if env.qbufOk then (Status.OK, [VCmd.dqbuf, VCmd.qbuf idx], writes)
      else (Status.GENERIC_ERROR, [VCmd.dqbuf, VCmd.qbuf idx], writes)

/-! ## Concrete sample data used by witnesses and counterexamples -/

/-- A sample geometry (the depth_ir catalog entry). -/
def sampleDepthIr : FrameDetails := ⟨640, 960, "depth_ir", ⟨0, 1⟩⟩

/-- A second, different sample geometry (the raw catalog entry). -/
def sampleRaw : FrameDetails := ⟨668, 750, "raw", ⟨0, 1⟩⟩

/-- A sample pool state holding one mapped buffer of the depth_ir geometry. -/
def sampleSt1 : ImplData := ⟨1, [⟨4096, 16⟩], sampleDepthIr, false⟩

/-- A `setFrameType` environment whose `munmap` calls all fail. -/
def envMunmapFail : SetFrameTypeEnv :=
  ⟨fun _ => false, true, true, 4, fun _ => true, fun _ => true, fun _ => 16, fun i => 4096 * i⟩

/-- A sample started pool state. -/
def sampleStStarted : ImplData := ⟨1, [⟨4096, 16⟩], sampleDepthIr, true⟩

/-- A sample `start` environment where every driver call succeeds. -/
def sampleStartEnv : StartEnv := ⟨fun _ => true, true⟩

/-- A `getFrame` environment in which the readiness wait times out. -/
def sampleTimeoutEnv : GetFrameEnv := ⟨0, true, Errno.otherErr 0, 0, fun _ _ => 0, true⟩

/-- A `getFrame` environment in which `VIDIOC_DQBUF` fails with a
non-tolerated errno. -/
def sampleDqFailEnv : GetFrameEnv := ⟨1, false, Errno.otherErr 5, 0, fun _ _ => 0, true⟩

/-! ## Helper lemmas -/

theorem byteAt_lt (pdata : Nat → Nat) (i : Nat) : byteAt pdata i < 256 :=
  Nat.mod_lt _ (by norm_num)

theorem pixelEven_lt (b0 b2 : Nat) (h : b0 < 256) : pixelEven b0 b2 < 2 ^ 16 := by
  have h1 : b0 <<< 4 < 2 ^ 16 := by
    rw [Nat.shiftLeft_eq]
    have : (2 : Nat) ^ 4 = 16 := by norm_num
    rw [this]
    have : (2 : Nat) ^ 16 = 65536 := by norm_num
    omega
  have h2 : b2 &&& 0x000F < 2 ^ 16 :=
    Nat.lt_of_le_of_lt Nat.and_le_right (by norm_num)
  exact Nat.or_lt_two_pow h1 h2

theorem pixelOdd_lt (b1 b2 : Nat) (h : b1 < 256) : pixelOdd b1 b2 < 2 ^ 16 := by
  have h1 : b1 <<< 4 < 2 ^ 16 := by
    rw [Nat.shiftLeft_eq]
    have : (2 : Nat) ^ 4 = 16 := by norm_num
    rw [this]
    have : (2 : Nat) ^ 16 = 65536 := by norm_num
    omega
  have h2 : (b2 &&& 0x00F0) >>> 4 < 2 ^ 16 := by
    have hle : b2 &&& 0x00F0 ≤ 0x00F0 := Nat.and_le_right
    have := Nat.shiftRight_eq_div_pow (b2 &&& 0x00F0) 4
    rw [this]
    have : (2 : Nat) ^ 4 = 16 := by norm_num
    rw [this]
    have : (2 : Nat) ^ 16 = 65536 := by norm_num
    omega
  exact Nat.or_lt_two_pow h1 h2

theorem rawRun_snd (pdata : Nat → Nat) (t : Nat) :
    (rawRun pdata t).2 = 2 * (t : Int) - 4 * (((t - 1) / 336 : Nat) : Int) := by
  induction t with
  | zero => simp [rawRun]
  | succ t ih =>
    simp only [rawRun]
    rw [ih]
    split
    · rename_i hcond
      obtain ⟨hne, hmod⟩ := hcond
      omega
    · rename_i hcond
      rw [Decidable.not_and_iff_or_not] at hcond
      rcases hcond with hne | hmod
      · omega
      · omega

theorem rawStep_cursor (pdata : Nat → Nat) (t : Nat) :
    (if 3 * t ≠ 0 ∧ 3 * t % (336 * 3) = 0 then (rawRun pdata t).2 - 4 else (rawRun pdata t).2) =
      rawCursor t := by
  rw [rawRun_snd]
  unfold rawCursor
  split
  · rename_i hcond
    obtain ⟨hne, hmod⟩ := hcond
    omega
  · rename_i hcond
    rw [Decidable.not_and_iff_or_not] at hcond
    rcases hcond with hne | hmod
    · omega
    · omega

theorem rawRun_succ (pdata : Nat → Nat) (t : Nat) :
    rawRun pdata (t + 1) =
      ((rawRun pdata t).1 ++
        [(rawCursor t, pixelEven (byteAt pdata (3 * t)) (byteAt pdata (3 * t + 2))),
         (rawCursor t + 1, pixelOdd (byteAt pdata (3 * t + 1)) (byteAt pdata (3 * t + 2)))],
       rawCursor t + 2) := by
  simp only [rawRun]
  rw [rawStep_cursor]

theorem rawRun_length (pdata : Nat → Nat) (t : Nat) :
    ((rawRun pdata t).1).length = 2 * t := by
  induction t with
  | zero => rfl
  | succ t ih =>
    rw [rawRun_succ]
    simp only [List.length_append, List.length_cons, List.length_nil]
    omega

theorem rawRun_get (pdata : Nat → Nat) (T t : Nat) (h : t < T) :
    (rawRun pdata T).1[2 * t]? =
      some (rawCursor t, pixelEven (byteAt pdata (3 * t)) (byteAt pdata (3 * t + 2))) ∧
    (rawRun pdata T).1[2 * t + 1]? =
      some (rawCursor t + 1, pixelOdd (byteAt pdata (3 * t + 1)) (byteAt pdata (3 * t + 2))) := by
  induction T with
  | zero => omega
  | succ T ih =>
    rw [rawRun_succ]
    rcases Nat.lt_succ_iff_lt_or_eq.1 h with hlt | heq
    · have hlen := rawRun_length pdata T
      constructor
      · rw [List.getElem?_append_left (by omega)]
        exact (ih hlt).1
      · rw [List.getElem?_append_left (by omega)]
        exact (ih hlt).2
    · subst heq
      have hlen := rawRun_length pdata t
      constructor
      · rw [List.getElem?_append_right (by omega)]
        simp [hlen]
      · rw [List.getElem?_append_right (by omega)]
        simp [hlen]

theorem munmapLoop_ok_iff (ok : Nat → Bool) (n : Nat) :
    (munmapLoop ok n).1 = true ↔ ∀ i, i < n → ok i = true := by
  induction n with
  | zero => simp [munmapLoop]
  | succ n ih =>
    rcases h : munmapLoop ok n with ⟨b, cs⟩
    rw [h] at ih
    rcases b with _ | _
    · simp only [munmapLoop, h]
      constructor
      · intro hfalse; exact absurd hfalse (by simp)
      · intro hall
        have : (false : Bool) = true := ih.2 fun i hi => hall i (Nat.lt_succ_of_lt hi)
        exact absurd this (by simp)
    · simp only [munmapLoop, h]
      have hall : ∀ i, i < n → ok i = true := ih.1 rfl
      constructor
      · intro hok i hi
        rcases Nat.lt_succ_iff_lt_or_eq.1 hi with hlt | heq
        · exact hall i hlt
        · subst heq; exact hok
      · intro h2; exact h2 n (Nat.lt_succ_self n)

theorem munmapLoop_of_all_ok (ok : Nat → Bool) (n : Nat)
    (h : ∀ i, i < n → ok i = true) :
    munmapLoop ok n = (true, (List.range n).map VCmd.munmapBuf) := by
  induction n with
  | zero => simp [munmapLoop]
  | succ n ih =>
    have hrec := ih fun i hi => h i (Nat.lt_succ_of_lt hi)
    simp [munmapLoop, hrec, h n (Nat.lt_succ_self n), List.range_succ]

theorem dtorUnmapAll_cmds (ok : Nat → Bool) (n : Nat) :
    (dtorUnmapAll ok n).1 = (List.range n).map VCmd.munmapBuf := by
  induction n with
  | zero => simp [dtorUnmapAll]
  | succ n ih =>
    rcases h : dtorUnmapAll ok n with ⟨cs, w⟩
    simp only [dtorUnmapAll, h, List.range_succ, List.map_append]
    rw [h] at ih; simpa using ih

theorem wafeCounter_one_mod (k : Nat) : wafeCounter 1 k % 4096 = 4 := by
  induction k with
  | zero => simp [wafeCounter, sizeTMod]
  | succ k ih =>
    show wafeStep (wafeCounter 1 k) % 4096 = 4
    unfold wafeStep sizeTMod
    omega

theorem selCount_le (width t : Nat) : selCount width t ≤ t := by
  induction t with
  | zero => exact Nat.le_refl 0
  | succ t ih =>
    simp only [selCount]
    split <;> omega

theorem diRun_state (pdata : Nat → Nat) (width hw2 t : Nat) :
    (diRun pdata width hw2 t).j = 2 * t ∧
    (diRun pdata width hw2 t).o0 = 2 * selCount width t ∧
    (diRun pdata width hw2 t).o1 = hw2 + 2 * (t - selCount width t) := by
  induction t with
  | zero => exact ⟨rfl, rfl, rfl⟩
  | succ t ih =>
    obtain ⟨hj, h0, h1⟩ := ih
    have hle := selCount_le width t
    by_cases hc : (2 * t / width) % 2 = 0
    · simp only [diRun, diStep, hj, if_pos hc]
      refine ⟨rfl, ?_, ?_⟩ <;> simp only [selCount, if_pos hc, h0, h1] <;> omega
    · simp only [diRun, diStep, hj, if_neg hc]
      refine ⟨rfl, ?_, ?_⟩ <;> simp only [selCount, if_neg hc, h0, h1] <;> omega

theorem diRun_succ_trace (pdata : Nat → Nat) (width hw2 t : Nat) :
    (diRun pdata width hw2 (t + 1)).trace =
      (diRun pdata width hw2 t).trace ++
        [(diIndex width hw2 t, pixelEven (byteAt pdata (3 * t)) (byteAt pdata (3 * t + 2))),
         (diIndex width hw2 t + 1,
          pixelOdd (byteAt pdata (3 * t + 1)) (byteAt pdata (3 * t + 2)))] := by
  obtain ⟨hj, h0, h1⟩ := diRun_state pdata width hw2 t
  by_cases hc : (2 * t / width) % 2 = 0
  · simp only [diRun, diStep, hj, if_pos hc, diIndex, h0, h1]
  · simp only [diRun, diStep, hj, if_neg hc, diIndex, h0, h1]

theorem diRun_length (pdata : Nat → Nat) (width hw2 t : Nat) :
    (diRun pdata width hw2 t).trace.length = 2 * t := by
  induction t with
  | zero => rfl
  | succ t ih =>
    rw [diRun_succ_trace]
    simp only [List.length_append, List.length_cons, List.length_nil]
    omega

theorem diRun_get (pdata : Nat → Nat) (width hw2 T t : Nat) (h : t < T) :
    (diRun pdata width hw2 T).trace[2 * t]? =
      some (diIndex width hw2 t, pixelEven (byteAt pdata (3 * t)) (byteAt pdata (3 * t + 2))) ∧
    (diRun pdata width hw2 T).trace[2 * t + 1]? =
      some (diIndex width hw2 t + 1,
            pixelOdd (byteAt pdata (3 * t + 1)) (byteAt pdata (3 * t + 2))) := by
  induction T with
  | zero => omega
  | succ T ih =>
    rw [diRun_succ_trace]
    rcases Nat.lt_succ_iff_lt_or_eq.1 h with hlt | heq
    · have hlen := diRun_length pdata width hw2 T
      constructor
      · rw [List.getElem?_append_left (by omega)]
        exact (ih hlt).1
      · rw [List.getElem?_append_left (by omega)]
        exact (ih hlt).2
    · subst heq
      have hlen := diRun_length pdata width hw2 t
      constructor
      · rw [List.getElem?_append_right (by omega)]
        simp [hlen]
      · rw [List.getElem?_append_right (by omega)]
        simp [hlen]

theorem exists_mem_append_pair {l : List (Nat × Nat)} {a1 a2 b1 b2 m : Nat} :
    (∃ v, (m, v) ∈ l ++ [(a1, a2), (b1, b2)]) ↔
      (∃ v, (m, v) ∈ l) ∨ m = a1 ∨ m = b1 := by
  constructor
  · rintro ⟨v, hv⟩
    rcases List.mem_append.1 hv with h | h
    · exact Or.inl ⟨v, h⟩
    · rcases List.mem_cons.1 h with h1 | h1
      · exact Or.inr (Or.inl (congrArg Prod.fst h1))
      · rcases List.mem_cons.1 h1 with h2 | h2
        · exact Or.inr (Or.inr (congrArg Prod.fst h2))
        · exact absurd h2 (List.not_mem_nil _)
  · rintro (⟨v, hv⟩ | rfl | rfl)
    · exact ⟨v, List.mem_append_left _ hv⟩
    · exact ⟨a2, List.mem_append_right _ (List.mem_cons_self _ _)⟩
    · exact ⟨b2, List.mem_append_right _ (List.mem_cons_of_mem _ (List.mem_cons_self _ _))⟩

theorem diRun_mem_iff (pdata : Nat → Nat) (width hw2 t m : Nat) :
    (∃ v, (m, v) ∈ (diRun pdata width hw2 t).trace) ↔
      (m < 2 * selCount width t ∨
        (hw2 ≤ m ∧ m < hw2 + 2 * (t - selCount width t))) := by
  induction t with
  | zero =>
    simp only [diRun, selCount]
    constructor
    · rintro ⟨v, hv⟩
      exact absurd hv (List.not_mem_nil _)
    · intro h
      exact absurd h (by omega)
  | succ t ih =>
    rw [diRun_succ_trace, exists_mem_append_pair, ih]
    have hle := selCount_le width t
    by_cases hc : (2 * t / width) % 2 = 0
    · simp only [diIndex, if_pos hc, selCount]
      omega
    · simp only [diIndex, if_neg hc, selCount]
      omega

theorem diRun_values_zero (width hw2 t : Nat) :
    ∀ p ∈ (diRun (fun _ => 0) width hw2 t).trace, p.2 = 0 := by
  induction t with
  | zero =>
    intro p hp
    exact absurd hp (List.not_mem_nil _)
  | succ t ih =>
    rw [diRun_succ_trace]
    intro p hp
    rcases List.mem_append.1 hp with h | h
    · exact ih p h
    · have he : pixelEven (byteAt (fun _ => 0) (3 * t)) (byteAt (fun _ => 0) (3 * t + 2)) = 0 := by
        simp [byteAt, pixelEven]
      have ho : pixelOdd (byteAt (fun _ => 0) (3 * t + 1)) (byteAt (fun _ => 0) (3 * t + 2)) = 0 := by
        simp [byteAt, pixelOdd]
      rcases List.mem_cons.1 h with h1 | h1
      · rw [h1, he]
      · rcases List.mem_cons.1 h1 with h2 | h2
        · rw [h2, ho]
        · exact absurd h2 (List.not_mem_nil _)

theorem selCount_succ (width t : Nat) :
    selCount width (t + 1) = selCount width t + (if (2 * t / width) % 2 = 0 then 1 else 0) :=
  rfl

theorem selCount_640_lower (k r : Nat) (h : r ≤ 320) :
    selCount 640 (640 * k + r) = selCount 640 (640 * k) + r := by
  induction r with
  | zero => rfl
  | succ r ih =>
    have hstep : 640 * k + (r + 1) = (640 * k + r) + 1 := by omega
    rw [hstep, selCount_succ, ih (by omega)]
    have hcond : (2 * (640 * k + r) / 640) % 2 = 0 := by omega
    rw [if_pos hcond]
    omega

theorem selCount_640_upper (k r : Nat) (h : r ≤ 320) :
    selCount 640 (640 * k + 320 + r) = selCount 640 (640 * k + 320) := by
  induction r with
  | zero => rfl
  | succ r ih =>
    have hstep : 640 * k + 320 + (r + 1) = (640 * k + 320 + r) + 1 := by omega
    rw [hstep, selCount_succ, ih (by omega)]
    have hcond : ¬ (2 * (640 * k + 320 + r) / 640) % 2 = 0 := by omega
    rw [if_neg hcond]
    omega

theorem selCount_640_full (k : Nat) : selCount 640 (640 * k) = 320 * k := by
  induction k with
  | zero => rfl
  | succ k ih =>
    have hsplit : 640 * (k + 1) = 640 * k + 320 + 320 := by ring
    rw [hsplit, selCount_640_upper k 320 (Nat.le_refl 320)]
    have := selCount_640_lower k 320 (Nat.le_refl 320)
    rw [this, ih]
    ring

theorem applyTrace_of_not_mem (tr : List (Nat × Nat)) (m : Nat) :
    ∀ init : Nat → Nat, (∀ v, (m, v) ∉ tr) → applyTrace init tr m = init m := by
  induction tr with
  | nil => intro init _; rfl
  | cons p ps ih =>
    intro init h
    have hne : m ≠ p.1 := by
      intro he
      exact h p.2 (by rw [he]; exact List.mem_cons_self _ _)
    have hrest : ∀ v, (m, v) ∉ ps := fun v hv => h v (List.mem_cons_of_mem _ hv)
    show applyTrace (Function.update init p.1 p.2) ps m = init m
    rw [ih _ hrest]
    exact Function.update_noteq hne _ _

theorem applyTrace_zero (tr : List (Nat × Nat)) (m : Nat) (hz : ∀ p ∈ tr, p.2 = 0) :
    ∀ init : Nat → Nat, (∃ v, (m, v) ∈ tr) → applyTrace init tr m = 0 := by
  induction tr with
  | nil =>
    rintro init ⟨v, hv⟩
    exact absurd hv (List.not_mem_nil _)
  | cons p ps ih =>
    rintro init ⟨v, hv⟩
    by_cases hmem : ∃ w, (m, w) ∈ ps
    · show applyTrace (Function.update init p.1 p.2) ps m = 0
      exact ih (fun q hq => hz q (List.mem_cons_of_mem _ hq)) _ hmem
    · have hpm : (m, v) = p := by
        rcases List.mem_cons.1 hv with h1 | h1
        · exact h1
        · exact absurd ⟨v, h1⟩ hmem
      have hp1 : p.1 = m := by rw [← hpm]
      have hp2 : p.2 = 0 := hz p (List.mem_cons_self _ _)
      show applyTrace (Function.update init p.1 p.2) ps m = 0
      rw [applyTrace_of_not_mem ps m _ (fun w hw => hmem ⟨w, hw⟩)]
      rw [hp1, hp2]
      exact Function.update_same m 0 init

/-! ## Claim theorems -/

/-- Claim C9: `getAvailableFrameTypes` always succeeds and appends exactly
the fixed static catalog, in order: 640×960 depth_ir then 668×750 raw, each
with calibration offset 0 and gain 1. -/
theorem getAvailableFrameTypes_catalog (types : List FrameDetails) :
    (getAvailableFrameTypes types).1 = Status.OK ∧
    (getAvailableFrameTypes types).2 =
      types ++ [⟨640, 960, "depth_ir", ⟨0, 1⟩⟩, ⟨668, 750, "raw", ⟨0, 1⟩⟩] :=
  ⟨rfl, rfl⟩

/-- Claim C10 (code bug evidence): for `length = 1` (one register pair, four
bytes), the remaining-length `size_t` counter of the `writeAfeRegisters`
chunking loop never reaches zero — it stays congruent to 4 modulo 4096 under
the wrapping subtraction of 4096 — so the `while (length)` loop never
terminates, contradicting the claim that the loop reaches zero for every
length. -/
theorem writeAfeRegisters_counter_never_zero (k : Nat) : wafeCounter 1 k ≠ 0 := by
  intro h
  have := wafeCounter_one_mod k
  rw [h] at this
  simp at this

/-- Claim C5: after the dequeue ioctl in `getFrame`, the dequeue stage fails
exactly when the dequeue failed with an errno other than EAGAIN or EIO, or
the reported buffer index is not below the pool's buffer count; a fatal
dequeue stage makes the whole call fail with no requeue and no output
writes; and on a tolerated transient failure with an in-range index,
execution continues using exactly the index the driver reported. -/
theorem getFrame_dequeue_failure (env : GetFrameEnv) (st : ImplData) :
    (dqDecision st.nVideoBuffers env.dqOk env.dqErrno env.dqIndex = none ↔
      ((env.dqOk = false ∧ env.dqErrno ≠ Errno.eagainErr ∧ env.dqErrno ≠ Errno.eioErr) ∨
        st.nVideoBuffers ≤ env.dqIndex)) ∧
    (env.selectRes ≠ -1 → env.selectRes ≠ 0 →
      dqDecision st.nVideoBuffers env.dqOk env.dqErrno env.dqIndex = none →
      getFrame env st = (Status.GENERIC_ERROR, [VCmd.dqbuf], [])) ∧
    (env.dqOk = false → (env.dqErrno = Errno.eagainErr ∨ env.dqErrno = Errno.eioErr) →
      env.dqIndex < st.nVideoBuffers →
      dqDecision st.nVideoBuffers env.dqOk env.dqErrno env.dqIndex = some env.dqIndex) := by
  refine ⟨?_, ?_, ?_⟩
  · rcases env with ⟨sr, dqOk, e, idx, bytes, q⟩
    rcases e with _ | _ | c <;> rcases dqOk with _ | _ <;>
      simp [dqDecision, dqTolerated]
  · intro h1 h2 hnone
    simp [getFrame, h1, h2, hnone]
  · intro hok htol hidx
    rcases htol with h | h <;>
      simp [dqDecision, dqTolerated, h, Nat.not_le_of_lt hidx, Nat.not_le.2 hidx]

/-- Claim C5 witness: a dequeue failure with a non-tolerated errno makes the
call fail after issuing only the dequeue command. -/
theorem getFrame_dequeue_failure_witness :
    getFrame sampleDqFailEnv sampleSt1 = (Status.GENERIC_ERROR, [VCmd.dqbuf], []) :=
  (getFrame_dequeue_failure sampleDqFailEnv sampleSt1).2.1 (by decide) (by decide) rfl

/-- Claim C6: when the 4-second readiness wait (`tv.tv_sec = 4`) times out,
`getFrame` returns an error having issued no driver command (no dequeue and
no requeue) and having written nothing into the output buffer. -/
theorem getFrame_timeout (env : GetFrameEnv) (st : ImplData) (h : env.selectRes = 0) :
    getFrame env st = (Status.GENERIC_ERROR, [], []) ∧ getFrameTimeoutSec = 4 := by
  refine ⟨?_, rfl⟩
  simp [getFrame, h]

/-- Claim C6 witness. -/
theorem getFrame_timeout_witness :
    getFrame sampleTimeoutEnv sampleSt1 = (Status.GENERIC_ERROR, [], []) ∧
    getFrameTimeoutSec = 4 :=
  getFrame_timeout sampleTimeoutEnv sampleSt1 rfl

/-- Claim C7: `start` while started and `stop` while stopped return BUSY; on
every non-OK outcome of `start` or `stop` (busy or any enqueue /
stream-on / stream-off driver failure) the whole state, in particular the
`started` flag, is left unchanged: `start` leaves it `false` on a driver
failure and `stop` leaves it `true` on a driver failure. -/
theorem start_stop_busy_and_failure (env : StartEnv) (soOk : Bool) (st : ImplData) :
    (st.started = true → start env st = (Status.BUSY, st, [])) ∧
    (st.started = false → stop soOk st = (Status.BUSY, st, [])) ∧
    ((start env st).1 ≠ Status.OK → (start env st).2.1 = st) ∧
    ((stop soOk st).1 ≠ Status.OK → (stop soOk st).2.1 = st) ∧
    (st.started = false → (start env st).1 ≠ Status.OK → (start env st).2.1.started = false) ∧
    (st.started = true → (stop soOk st).1 ≠ Status.OK → (stop soOk st).2.1.started = true) := by
  have hstart : (start env st).1 ≠ Status.OK → (start env st).2.1 = st := by
    intro hne
    by_cases hs : st.started
    · simp [start, hs]
    · rcases hq : qbufLoop env.qbufOk st.nVideoBuffers with ⟨b, cs⟩
      rcases b with _ | _
      · simp [start, hs, hq]
      · rcases hso : env.streamOnOk with _ | _
        · simp [start, hs, hq, hso]
        · exact absurd (by simp [start, hs, hq, hso]) hne
  have hstop : (stop soOk st).1 ≠ Status.OK → (stop soOk st).2.1 = st := by
    intro hne
    by_cases hs : st.started
    · rcases hso : soOk with _ | _
      · simp [stop, hs, hso]
      · exact absurd (by simp [stop, hs, hso]) hne
    · simp [stop, hs]
  refine ⟨?_, ?_, hstart, hstop, ?_, ?_⟩
  · intro h; simp [start, h]
  · intro h; simp [stop, h]
  · intro h hne; rw [hstart hne]; exact h
  · intro h hne; rw [hstop hne]; exact h

/-- Claim C7 witness: starting an already started session and stopping an
idle session are both busy errors. -/
theorem start_stop_busy_and_failure_witness :
    start sampleStartEnv sampleStStarted = (Status.BUSY, sampleStStarted, []) ∧
    stop true sampleSt1 = (Status.BUSY, sampleSt1, []) :=
  ⟨(start_stop_busy_and_failure sampleStartEnv true sampleStStarted).1 rfl,
   (start_stop_busy_and_failure sampleStartEnv true sampleSt1).2.1 rfl⟩

/-- Claim C8: `setFrameType` with the currently stored geometry and a
non-empty pool returns OK immediately: the state (count, mapped buffers,
stored geometry) is unchanged and no driver or mapping command is issued, so
a second `setFrameType` with the same geometry performs no reallocation. -/
theorem setFrameType_same_geometry_noop (env : SetFrameTypeEnv) (details : FrameDetails)
    (st : ImplData) (h1 : details = st.frameDetails) (h2 : st.nVideoBuffers ≠ 0) :
    setFrameType env details st = (Status.OK, st, []) := by
  subst h1
  simp [setFrameType, h2]

/-- Claim C8 witness. -/
theorem setFrameType_same_geometry_noop_witness :
    setFrameType envMunmapFail sampleDepthIr sampleSt1 = (Status.OK, sampleSt1, []) :=
  setFrameType_same_geometry_noop envMunmapFail sampleDepthIr sampleSt1 rfl (by decide)

/-- Claim C4 counterexample: with one mapped buffer whose `munmap` fails, the
geometry-change release step of `setFrameType` returns an error to the
caller and leaves the pool count at 1 — contradicting the claim that an
individual unmap failure is only logged and the count always ends at zero. -/
theorem release_unmap_failure_counterexample :
    (setFrameType envMunmapFail sampleRaw sampleSt1).1 = Status.GENERIC_ERROR ∧
    (setFrameType envMunmapFail sampleRaw sampleSt1).2.1.nVideoBuffers = 1 := by
  exact ⟨rfl, rfl⟩

/-- Claim C4 as amended: the destructor's unmap-all step attempts every
buffer and never aborts on an individual failure, but the geometry-change
release in `setFrameType` returns an error on the first failed unmap leaving
the pool count unchanged; the count is cleared to zero exactly when every
unmap succeeds. -/
theorem release_unmap_failure_amended (munmapOk : Nat → Bool) (n : Nat) (st : ImplData) :
    (dtorUnmapAll munmapOk n).1 = (List.range n).map VCmd.munmapBuf ∧
    ((∃ i, i < st.nVideoBuffers ∧ munmapOk i = false) →
      (releaseBuffers munmapOk st).1 = Status.GENERIC_ERROR ∧
      (releaseBuffers munmapOk st).2.1 = st) ∧
    ((∀ i, i < st.nVideoBuffers → munmapOk i = true) →
      releaseBuffers munmapOk st =
        (Status.OK, { st with nVideoBuffers := 0, videoBuffers := [] },
         (List.range st.nVideoBuffers).map VCmd.munmapBuf)) := by
  refine ⟨dtorUnmapAll_cmds munmapOk n, ?_, ?_⟩
  · rintro ⟨i, hi, hfail⟩
    rcases hq : munmapLoop munmapOk st.nVideoBuffers with ⟨b, cs⟩
    rcases b with _ | _
    · simp [releaseBuffers, hq]
    · have : (munmapLoop munmapOk st.nVideoBuffers).1 = true := by rw [hq]
      have := (munmapLoop_ok_iff munmapOk st.nVideoBuffers).1 this i hi
      rw [hfail] at this
      exact absurd this (by simp)
  · intro hall
    simp [releaseBuffers, munmapLoop_of_all_ok munmapOk st.nVideoBuffers hall]

/-- Claim C4 amended witness: a failing unmap makes the `setFrameType`
release path fail with the pool count untouched. -/
theorem release_unmap_failure_amended_witness :
    (∃ i, i < sampleSt1.nVideoBuffers ∧ (fun _ => false : Nat → Bool) i = false) ∧
    (releaseBuffers (fun _ => false) sampleSt1).1 = Status.GENERIC_ERROR ∧
    (releaseBuffers (fun _ => false) sampleSt1).2.1 = sampleSt1 :=
  ⟨⟨0, by decide, rfl⟩,
   (release_unmap_failure_amended (fun _ => false) 0 sampleSt1).2.1 ⟨0, by decide, rfl⟩⟩

/-- Claim C1: for the width-668 (raw) 668×750 geometry, the unpacker writes
pixels sequentially in triplet order — triplet `t` writes at cursor
positions `rawCursor t` and `rawCursor t + 1` — where the cursor advances by
2 per triplet except that whenever the input byte index `3*t` is a nonzero
multiple of `336*3` it is first rewound by 4; over the whole plane of
`height*width*3/2` input bytes the unpacker produces exactly `height*width`
pixel writes, all of them at nonnegative positions below `height*width`. -/
theorem raw_unpacker_rewind (pdata : Nat → Nat) :
    (unpackRaw pdata 750 668).length = 750 * 668 ∧
    (∀ t, t < numTriplets 750 668 →
      (unpackRaw pdata 750 668)[2 * t]? =
        some (rawCursor t, pixelEven (byteAt pdata (3 * t)) (byteAt pdata (3 * t + 2))) ∧
      (unpackRaw pdata 750 668)[2 * t + 1]? =
        some (rawCursor t + 1, pixelOdd (byteAt pdata (3 * t + 1)) (byteAt pdata (3 * t + 2))) ∧
      0 ≤ rawCursor t ∧ rawCursor t + 1 < 750 * 668) ∧
    (∀ t, 0 < t → 3 * t % (336 * 3) = 0 → rawCursor t = rawCursor (t - 1) + 2 - 4) ∧
    (∀ t, 0 < t → 3 * t % (336 * 3) ≠ 0 → rawCursor t = rawCursor (t - 1) + 2) := by
  have hT : numTriplets 750 668 = 250500 := by norm_num [numTriplets]
  refine ⟨?_, ?_, ?_, ?_⟩
  · simp only [unpackRaw]
    rw [rawRun_length, hT]
  · intro t ht
    have hg := rawRun_get pdata (numTriplets 750 668) t ht
    rw [hT] at ht
    simp only [unpackRaw]
    refine ⟨hg.1, hg.2, ?_, ?_⟩
    · unfold rawCursor; omega
    · unfold rawCursor; omega
  · intro t ht hm
    unfold rawCursor
    omega
  · intro t ht hm
    unfold rawCursor
    omega

/-- Claim C1 witness: the first triplet of the raw plane is written at
cursor 0, and the plane length property holds concretely. -/
theorem raw_unpacker_rewind_witness :
    0 < numTriplets 750 668 ∧
    (unpackRaw (fun _ => 0) 750 668)[2 * 0]? =
      some (rawCursor 0,
            pixelEven (byteAt (fun _ => 0) (3 * 0)) (byteAt (fun _ => 0) (3 * 0 + 2))) := by
  have h0 : 0 < numTriplets 750 668 := by norm_num [numTriplets]
  exact ⟨h0, ((raw_unpacker_rewind (fun _ => 0)).2.1 0 h0).1⟩

/-- Claim C2: in both addressing strategies, the two pixels of input byte
triplet `(b0, b1, b2)` (at byte indices `3t`, `3t+1`, `3t+2`) are written at
consecutive output positions as `(b0 << 4) | (b2 & 0x0F)` (even pixel) and
`(b1 << 4) | ((b2 & 0xF0) >> 4)` (odd pixel), and each value fits in 16
bits. -/
theorem unpack_pixel_formulas (pdata : Nat → Nat) (height width t : Nat)
    (ht : t < numTriplets height width) :
    (∃ j : Int,
      (unpackRaw pdata height width)[2 * t]? =
        some (j, pixelEven (byteAt pdata (3 * t)) (byteAt pdata (3 * t + 2))) ∧
      (unpackRaw pdata height width)[2 * t + 1]? =
        some (j + 1, pixelOdd (byteAt pdata (3 * t + 1)) (byteAt pdata (3 * t + 2)))) ∧
    (∃ o : Nat,
      (unpackDI pdata height width)[2 * t]? =
        some (o, pixelEven (byteAt pdata (3 * t)) (byteAt pdata (3 * t + 2))) ∧
      (unpackDI pdata height width)[2 * t + 1]? =
        some (o + 1, pixelOdd (byteAt pdata (3 * t + 1)) (byteAt pdata (3 * t + 2)))) ∧
    pixelEven (byteAt pdata (3 * t)) (byteAt pdata (3 * t + 2)) < 2 ^ 16 ∧
    pixelOdd (byteAt pdata (3 * t + 1)) (byteAt pdata (3 * t + 2)) < 2 ^ 16 := by
  refine ⟨?_, ?_, pixelEven_lt _ _ (byteAt_lt pdata _), pixelOdd_lt _ _ (byteAt_lt pdata _)⟩
  · have hg := rawRun_get pdata (numTriplets height width) t ht
    exact ⟨rawCursor t, hg.1, hg.2⟩
  · have hg := diRun_get pdata width (height * width / 2) (numTriplets height width) t ht
    exact ⟨diIndex width (height * width / 2) t, hg.1, hg.2⟩

/-- Claim C2 witness. -/
theorem unpack_pixel_formulas_witness :
    0 < numTriplets 960 640 ∧
    pixelEven (byteAt (fun _ => 0) (3 * 0)) (byteAt (fun _ => 0) (3 * 0 + 2)) < 2 ^ 16 := by
  have h0 : 0 < numTriplets 960 640 := by norm_num [numTriplets]
  exact ⟨h0, (unpack_pixel_formulas (fun _ => 0) 960 640 0 h0).2.2.1⟩

/-- Claim C3: for every geometry with width ≠ 668 the unpacker takes the
two-running-offset branch; the pair cursor `j` advances by 2 per triplet,
`offset[0]` starts at 0 and `offset[1]` at `height*width/2`, the offset for
triplet `t` is selected by the parity `(j / width) % 2 = (2t / width) % 2`,
and triplet `t`'s two pixels land exactly at the predicted positions
`diIndex` and `diIndex + 1`; in particular an all-zero packed plane of
`640*960*3/2` bytes decodes, over any initial output contents, into an
all-zero output array of length `640*960`. -/
theorem depthir_unpacker (pdata : Nat → Nat) (height width : Nat) (hw : width ≠ 668) :
    unpackFrame pdata height width =
      (unpackDI pdata height width).map (fun p => ((p.1 : Int), p.2)) ∧
    (∀ t,
      (diRun pdata width (height * width / 2) t).j = 2 * t ∧
      (diRun pdata width (height * width / 2) t).o0 = 2 * selCount width t ∧
      (diRun pdata width (height * width / 2) t).o1 =
        height * width / 2 + 2 * (t - selCount width t)) ∧
    (∀ t, t < numTriplets height width →
      (unpackDI pdata height width)[2 * t]? =
        some (diIndex width (height * width / 2) t,
              pixelEven (byteAt pdata (3 * t)) (byteAt pdata (3 * t + 2))) ∧
      (unpackDI pdata height width)[2 * t + 1]? =
        some (diIndex width (height * width / 2) t + 1,
              pixelOdd (byteAt pdata (3 * t + 1)) (byteAt pdata (3 * t + 2)))) ∧
    (∀ init : Nat → Nat, ∀ m, m < 640 * 960 →
      applyTrace init (unpackDI (fun _ => 0) 960 640) m = 0) := by
  refine ⟨?_,
          fun t => diRun_state pdata width (height * width / 2) t,
          fun t ht => diRun_get pdata width (height * width / 2) (numTriplets height width) t ht,
          ?_⟩
  · simp [unpackFrame, hw]
  · intro init m hm
    have hsel : selCount 640 307200 = 153600 := by
      have h480 := selCount_640_full 480
      norm_num at h480
      exact h480
    rw [unpackDI]
    have e1 : (960 * 640 / 2 : Nat) = 307200 := by norm_num
    have e2 : numTriplets 960 640 = 307200 := by norm_num [numTriplets]
    rw [e1, e2]
    apply applyTrace_zero _ m (diRun_values_zero 640 307200 307200) init
    rw [diRun_mem_iff, hsel]
    omega

/-- Claim C3 witness: the pair cursor after one triplet is 2, and the
all-zero 640×960 plane yields 0 at output position 0 over junk initial
contents. -/
theorem depthir_unpacker_witness :
    (diRun (fun _ => 0) 640 (960 * 640 / 2) 1).j = 2 * 1 ∧
    applyTrace (fun _ => 7) (unpackDI (fun _ => 0) 960 640) 0 = 0 := by
  have h := depthir_unpacker (fun _ => 0) 960 640 (by norm_num)
  exact ⟨(h.2.1 1).1, h.2.2.2 (fun _ => 7) 0 (by norm_num)⟩

end AditofDragonboard
